import Mathlib

/-!
Verification development for the adaptive-learning repository.

The decision engine of the repository lives in three places:

* `Frustraiton.py` — the per-test frustration scorer
  (`_compute_test_frustration`) and the batch entry point
  (`compute_frustration_per_test`) together with its CSV helpers;
* `LearningApp.py` — the live mode-selection policy inside `start_quiz`,
  the preferred-mode store (`get_preferred_mode` / `save_preferred_mode`),
  the mode cycle (`get_next_mode`) and the answer bookkeeping
  (`submit_answer`);
* `run_addition_app.py` — the inactivity monitor
  (`_check_inactivity_and_launch`).

Python floats are modelled by exact rationals (`ℚ`), strings by `String`
(with explicit list-of-character based `strLower` / `strUpper` / `strTrim`
mirroring `str.lower()` / `str.upper()` / `str.strip()` on ASCII data),
CSV files by lists of record structures, and in-process dictionaries by
association lists.  Functions keep the names of the Python functions they
embed (camel-cased).
-/

/-- ASCII lower-casing of a string, one character at a time
(embeds Python's `str.lower()` on the ASCII labels used by the app). -/
def strLower (s : String) : String := ⟨s.data.map Char.toLower⟩

/-- ASCII upper-casing of a string (embeds Python's `str.upper()`). -/
def strUpper (s : String) : String := ⟨s.data.map Char.toUpper⟩

/-- Strip whitespace from both ends (embeds Python's `str.strip()`). -/
def strTrim (s : String) : String :=
  ⟨((s.data.dropWhile Char.isWhitespace).reverse.dropWhile Char.isWhitespace).reverse⟩

/-- Insert a value into a sorted list (helper for `sortedList`). -/
def insertSorted {α : Type} [LinearOrder α] (x : α) : List α → List α
  | [] => [x]
  | y :: ys => if x ≤ y then x :: y :: ys else y :: insertSorted x ys

/-- Insertion sort; on lists of numbers it produces the same list as
Python's `sorted`, since any two sorted lists with equal multisets of
numbers are equal. -/
def sortedList {α : Type} [LinearOrder α] : List α → List α
  | [] => []
  | x :: xs => insertSorted x (sortedList xs)

/-- Embeds `statistics.median`: sort, take the middle element for odd length and
the mean of the two middle elements for even length
(`Frustraiton.py`, via the `statistics` module). -/
def median (l : List ℚ) : ℚ :=
  let s := sortedList l
  let n := s.length
  if n % 2 = 1 then s.getD (n / 2) 0
  else (s.getD (n / 2 - 1) 0 + s.getD (n / 2) 0) / 2

/-- Rounding to two decimal places (`round(score, 2)` in
`_compute_test_frustration`).  `round` on `ℚ` rounds halves up while
Python rounds halves to even; no value in this development sits exactly
on a half-cent, so the two agree on everything proved here. -/
def round2 (q : ℚ) : ℚ := (round (q * 100) : ℚ) / 100

/-- Embeds `NEGATIVE_EMOTIONS` from `Frustraiton.py` line 12. -/
def negativeEmotions : List String := ["angry", "disgust", "fear", "sad"]

/-- One parsed interaction entry as stored in the per-test dictionaries of
`_read_log_grouped_by_test` (`Frustraiton.py` lines 55-62). -/
structure Entry where
  mode : String
  question : String
  response_time : ℚ
  correct : Bool
  skipped : Bool
  emotion : String
deriving Repr, DecidableEq

/-- Embeds `rts_correct` (`Frustraiton.py` line 113): response times of correct,
non-skipped entries. -/
def rtsCorrect (entries : List Entry) : List ℚ :=
  (entries.filter (fun e => e.correct && !e.skipped)).map (·.response_time)

/-- Embeds `rts_all` (`Frustraiton.py` line 114): response times of non-skipped
entries. -/
def rtsAll (entries : List Entry) : List ℚ :=
  (entries.filter (fun e => !e.skipped)).map (·.response_time)

/-- The per-test baseline response time (`Frustraiton.py` lines 115-120):
median of correct non-skipped response times when there are at least two,
else median of all non-skipped response times when any exist, else 10. -/
def baselineOf (entries : List Entry) : ℚ :=
  if (rtsCorrect entries).length ≥ 2 then median (rtsCorrect entries)
  else if rtsAll entries ≠ [] then median (rtsAll entries)
  else 10

/-- Embeds `err_rate` (`Frustraiton.py` lines 124-125): fraction of entries that
are skipped or incorrect. -/
def errRateOf (entries : List Entry) : ℚ :=
  ((entries.filter (fun e => e.skipped || !e.correct)).length : ℚ) / (entries.length : ℚ)

/-- The excess value appended for one non-skipped entry in the `rt_excess`
loop (`Frustraiton.py` lines 129-139). -/
def rtExcessOne (baseline rt : ℚ) : ℚ :=
  if baseline ≤ 0 then 0
  else if rt ≤ baseline then 0
  else min ((rt - baseline) / (baseline * (3 / 2))) 1

/-- The `rt_norm` value computed against an explicitly given baseline: mean of the
excess values over non-skipped entries, denominator at least 1
(`Frustraiton.py` lines 128-140). -/
def rtNormGiven (baseline : ℚ) (entries : List Entry) : ℚ :=
  let excess := (entries.filter (fun e => !e.skipped)).map
    (fun e => rtExcessOne baseline e.response_time)
  excess.sum / max 1 (excess.length : ℚ)

/-- The `rt_norm` value as the code computes it, with the per-test baseline. -/
def rtNormOf (entries : List Entry) : ℚ := rtNormGiven (baselineOf entries) entries

/-- The valence weight of one emotion label
(`Frustraiton.py` lines 144-151): 1 for the negative set, 0.4 for
neutral, 0 otherwise. -/
def emoValOne (emotion : String) : ℚ :=
  if strLower emotion ∈ negativeEmotions then 1
  else if strLower emotion = "neutral" then 2 / 5
  else 0

/-- Embeds `valence` (`Frustraiton.py` lines 143-152): mean of the emotion
weights over all entries. -/
def valenceOf (entries : List Entry) : ℚ :=
  (entries.map (fun e => emoValOne e.emotion)).sum / (entries.length : ℚ)

/-- The weighted composite `s` (`Frustraiton.py` line 155). -/
def compositeOf (entries : List Entry) : ℚ :=
  (9 / 20) * errRateOf entries + (1 / 4) * rtNormOf entries + (3 / 10) * valenceOf entries

/-- The smoothstep nonlinearity `3s² − 2s³` (`Frustraiton.py` line 156). -/
def smoothstep (s : ℚ) : ℚ := 3 * s * s - 2 * s * s * s

/-- The unrounded score of a non-empty entry list. -/
def rawScoreOf (entries : List Entry) : ℚ := smoothstep (compositeOf entries)

/-- The note thresholds (`Frustraiton.py` lines 159-164), applied to the
value handed to them (the code hands the unrounded score). -/
def noteOf (score : ℚ) : String :=
  if score > 3 / 4 then "High frustration"
  else if score > 2 / 5 then "Moderate frustration"
  else "Low frustration"

/-- Embeds `_compute_test_frustration` (`Frustraiton.py` lines 96-166): empty
input yields `(0, Low)`; otherwise the rounded smoothstep score together
with the note derived from the unrounded score. -/
def computeTestFrustration (entries : List Entry) : ℚ × String :=
  if entries = [] then (0, "Low frustration")
  else (round2 (rawScoreOf entries), noteOf (rawScoreOf entries))

/-- The baseline of the specification's reference definition, in the
spec's words (it coincides with `baselineOf`): median over correct
non-skipped records, falling back to the median over all non-skipped
records when there are fewer than 2, and to 10.0 when there are none. -/
def specBaseline (entries : List Entry) : ℚ :=
  if (rtsCorrect entries).length ≥ 2 then median (rtsCorrect entries)
  else if rtsAll entries = [] then 10
  else median (rtsAll entries)

/-- The per-record latency excess of the specification's reference
definition, exactly as the spec states it: `min((rt − baseline)/(baseline
× 1.5), 1.0)` for `rt` above the baseline and 0 otherwise — with no
provision for a non-positive baseline. -/
def specExcessOne (baseline rt : ℚ) : ℚ :=
  if rt > baseline then min ((rt - baseline) / (baseline * (3 / 2))) 1 else 0

/-- The per-record latency excess with the guard the code has and the
spec's reference formula lacks: 0 whenever the baseline is ≤ 0. -/
def specExcessOneGuarded (baseline rt : ℚ) : ℚ :=
  if baseline ≤ 0 then 0 else specExcessOne baseline rt

/-- The `rt_norm` of the spec's reference definition over a given per-record
excess function: mean over non-skipped records, denominator at least 1. -/
def specRtNormWith (excess : ℚ → ℚ → ℚ) (entries : List Entry) : ℚ :=
  let vals := (entries.filter (fun e => !e.skipped)).map
    (fun e => excess (specBaseline entries) e.response_time)
  vals.sum / max 1 (vals.length : ℚ)

/-- The `err_rate` of the spec's reference definition: the fraction of
records that are skipped or incorrect. -/
def specErrRate (entries : List Entry) : ℚ :=
  ((entries.countP (fun e => e.skipped || !e.correct)) : ℚ) / (entries.length : ℚ)

/-- The `valence` of the spec's reference definition: mean over all records
of 1.0 for emotions in \x7bangry, disgust, fear, sad\x7d, 0.4 for neutral and
0.0 otherwise (labels compared after lower-casing, as everywhere in the
pipeline). -/
def specValence (entries : List Entry) : ℚ :=
  (entries.map (fun e => emoValOne e.emotion)).sum / (entries.length : ℚ)

/-- The spec's reference scorer built over a given per-record excess
function: empty list ↦ (0, Low); otherwise the smoothstep of
`0.45·err_rate + 0.25·rt_norm + 0.30·valence`, rounded to 2 decimals,
with the note thresholds 0.75 and 0.4. -/
def specScorerWith (excess : ℚ → ℚ → ℚ) (entries : List Entry) : ℚ × String :=
  if entries = [] then (0, "Low frustration")
  else
    let s := (9 / 20) * specErrRate entries + (1 / 4) * specRtNormWith excess entries
      + (3 / 10) * specValence entries
    (round2 (smoothstep s), noteOf (smoothstep s))

/-- The spec's reference scorer exactly as the claim words it. -/
def specScorer (entries : List Entry) : ℚ × String := specScorerWith specExcessOne entries

/-- The spec's reference scorer with the non-positive-baseline guard
added — the minimal amendment under which it matches the code. -/
def specScorerGuarded (entries : List Entry) : ℚ × String :=
  specScorerWith specExcessOneGuarded entries

/-! ## LearningApp.py: stores and live mode selection -/

/-- One data row of a `frustration_report{id}.csv` file
(fields of `Frustraiton.py` line 90). -/
structure ReportRow where
  learner_id : String
  test_number : ℤ
  timestamp : String
  mode : String
  frustration_score : ℚ
  notes : String
deriving Repr, DecidableEq

/-- One data row of the `preferred_mode.csv` file
(`LearningApp.py` line 285). -/
structure PrefRow where
  learner_id : String
  preferred_mode : String
deriving Repr, DecidableEq

/-- One data row of a `learner_log{id}.csv` file, as parsed by
`_read_log_grouped_by_test` (`Frustraiton.py` lines 39-62; the parser
lower-cases the emotion field and drops malformed rows, so the model
carries already-parsed rows). -/
structure LogRow where
  learner_id : String
  test_number : ℤ
  mode : String
  question : String
  response_time : ℚ
  correct : Bool
  skipped : Bool
  emotion : String
deriving Repr, DecidableEq

/-- Embeds `MODES` (`LearningApp.py` line 74). -/
def MODES : List String := ["visual", "auditory", "kinesthetic"]

/-- Embeds `get_next_mode` (`LearningApp.py` lines 290-292). -/
def getNextMode (current : String) : String :=
  (MODES.getD ((MODES.indexOf current + 1) % MODES.length) "")

/-- Embeds `get_frustration` (`LearningApp.py` lines 239-247): the score of the
first report row whose learner id matches, `none` when the file is
missing or no row matches. -/
def getFrustration (report : List ReportRow) (lid : String) : Option ℚ :=
  (report.find? (fun r => r.learner_id == lid)).map (·.frustration_score)

/-- Embeds `get_preferred_mode` (`LearningApp.py` lines 249-257): the preferred
mode of the first matching row. -/
def getPreferredMode (prefs : List PrefRow) (lid : String) : Option String :=
  (prefs.find? (fun r => r.learner_id == lid)).map (·.preferred_mode)

/-- Embeds `save_preferred_mode` (`LearningApp.py` lines 282-288): append one
row to the preferred-mode file. -/
def savePreferredMode (prefs : List PrefRow) (lid mode : String) : List PrefRow :=
  prefs ++ [⟨lid, mode⟩]

/-- Embeds `get_last_used_mode` (`LearningApp.py` lines 259-280): fold over the
learner's log keeping the mode of the last row whose test number is at
least the running maximum (which starts at 0). -/
def getLastUsedMode (log : List LogRow) : Option String :=
  (log.foldl
    (fun (acc : Option String × ℤ) r =>
      if r.test_number ≥ acc.2 then (some r.mode, r.test_number) else acc)
    (none, 0)).1

/-- Python truthiness of an optional string: `None` and `""` are falsy
(`if preferred_mode:` / `if last_used_mode:` in `start_quiz`). -/
def truthyStr (o : Option String) : Bool :=
  match o with
  | none => false
  | some s => !(s == "")

/-- The mode-selection slice of `start_quiz` (`LearningApp.py` lines
321-350): returns the chosen mode together with the preferred-mode store
after the call (the low-frustration branch always appends via
`save_preferred_mode`). -/
def selectModeLive (log : List LogRow) (report : List ReportRow)
    (prefs : List PrefRow) (lid : String) : String × List PrefRow :=
  let preferred := getPreferredMode prefs lid
  let fscore := getFrustration report lid
  let lastUsed := getLastUsedMode log
  match fscore with
  | none => ("visual", prefs)
  | some sc =>
    if sc ≥ 2 / 5 then
      (if truthyStr lastUsed then getNextMode (lastUsed.getD "") else "auditory", prefs)
    else
      let m := if truthyStr preferred then preferred.getD ""
        else if truthyStr lastUsed then lastUsed.getD ""
        else "visual"
      (m, savePreferredMode prefs lid m)

/-- The five-row priority decision table as C2 words it, as a function of
the frustration score, stored preferred mode and last-used mode it is
given. -/
def decisionTable (fr : Option ℚ) (preferred lastUsed : Option String) : String :=
  match fr with
  | none => "visual"
  | some sc =>
    if sc ≥ 2 / 5 then
      match lastUsed with
      | some lm => getNextMode lm
      | none => "auditory"
    else
      match preferred with
      | some p => p
      | none => lastUsed.getD "visual"

/-- Modelled from the spec: the claim's reading "latest frustration
score" — the score of the LAST report row for the learner (the code
instead returns the first). -/
def latestFrustration (report : List ReportRow) (lid : String) : Option ℚ :=
  ((report.filter (fun r => r.learner_id == lid)).getLast?).map (·.frustration_score)

/-- Modelled from the spec: the claim's reading of "last-used mode" — the
mode of the test group with the highest test number in the learner's
log. -/
def lastUsedModeSpec (log : List LogRow) : Option String :=
  match (log.map (·.test_number)).max? with
  | none => none
  | some maxTn => ((log.filter (fun r => r.test_number == maxTn)).head?).map (·.mode)

/-! ## Frustraiton.py: the batch entry point -/

/-- The learner id found while reading the log
(`Frustraiton.py` line 53: `learner_id_found = learner_id or
learner_id_found` — the id of the last row with a non-empty id). -/
def learnerIdFound (log : List LogRow) : Option String :=
  log.foldl (fun acc r => if r.learner_id ≠ "" then some r.learner_id else acc) none

/-- The keys of the `tests` dictionary in the order `sorted(tests)`
iterates them (`Frustraiton.py` line 186): the distinct test numbers of
the log, sorted. -/
def sortedTestNumbers (log : List LogRow) : List ℤ :=
  sortedList ((log.map (·.test_number)).dedup)

/-- The entry list of one test group, in log order (the `tests`
dictionary values of `_read_log_grouped_by_test`). -/
def entriesFor (log : List LogRow) (tn : ℤ) : List Entry :=
  (log.filter (fun r => r.test_number == tn)).map
    (fun r => ⟨r.mode, r.question, r.response_time, r.correct, r.skipped, r.emotion⟩)

/-- Embeds `_existing_tests_in_report` (`Frustraiton.py` lines 66-83): the test
numbers already written for this learner id. -/
def existingTestsInReport (report : List ReportRow) (lid : String) : List ℤ :=
  (report.filter (fun r => r.learner_id == lid)).map (·.test_number)

/-- The report row written for one not-yet-scored test
(`Frustraiton.py` lines 189-195); `now` stands for the
`datetime.now()` timestamp string. -/
def reportRowFor (log : List LogRow) (lid : String) (now : String) (tn : ℤ) : ReportRow :=
  let entries := entriesFor log tn
  let scoreNote := computeTestFrustration entries
  let mode := match entries with
    | [] => "unknown"
    | e :: _ => e.mode
  ⟨lid, tn, now, mode, scoreNote.1, scoreNote.2⟩

/-- Embeds `compute_frustration_per_test` (`Frustraiton.py` lines 172-205): read
the log, skip test numbers already in the report for this learner, and
append one row per remaining test; the report is returned unchanged when
the log yields no learner id or no tests, or when no new rows remain. -/
def computeFrustrationPerTest (log : List LogRow) (report : List ReportRow)
    (now : String) : List ReportRow :=
  match learnerIdFound log with
  | none => report
  | some lid =>
    if log = [] then report
    else
      let already := existingTestsInReport report lid
      let newRows := ((sortedTestNumbers log).filter
        (fun tn => decide (tn ∉ already))).map (reportRowFor log lid now)
      if newRows = [] then report else report ++ newRows

/-! ## LearningApp.py: answer submission flags -/

/-- The `correct`/`skipped` pair recorded by `submit_answer`
(`LearningApp.py` lines 506-513): `correct` compares the stripped,
lower-cased answer with the lower-cased answer key; `skipped` is true for
the stripped upper-cased "SKIP" sentinel and for the empty answer. -/
def submitAnswerFlags (answerKey answer : String) : Bool × Bool :=
  let correct := strLower (strTrim answer) == strLower answerKey
  let skipped := (strUpper (strTrim answer) == "SKIP") || (answer == "")
  (correct, skipped)

/-! ## run_addition_app.py: the inactivity monitor -/

/-- The mode cycle of the inactivity monitor
(`run_addition_app.py` line 106, with the `.get(current_mode, 'visual')`
default of line 112). -/
def modeCycle (m : String) : String :=
  if m == "visual" then "kinesthetic"
  else if m == "kinesthetic" then "auditory"
  else if m == "auditory" then "visual"
  else "visual"

/-- Embeds `_load_inactivity_threshold` (`run_addition_app.py` lines 69-90)
restricted to its stored-value path: the stored threshold when present,
the 120-second default otherwise. -/
def loadInactivityThreshold (stored : Option ℚ) : ℚ := stored.getD 120

/-- Upsert into an association list — the effect of
`preferred_modes[learner_id] = new_mode` followed by rewriting
`preferred_modes.csv` from the dictionary. -/
def upsertMode : List (ℕ × String) → ℕ → String → List (ℕ × String)
  | [], k, v => [(k, v)]
  | (k', v') :: rest, k, v =>
    if k' = k then (k, v) :: rest else (k', v') :: upsertMode rest k v

/-- The monitor's mutable state: `_last_interaction_ts`,
`_launched_subtraction` and the `preferred_modes.csv` contents
(`run_addition_app.py` lines 62-67 and 118-122). -/
structure MonitorState where
  lastInteraction : List (ℕ × ℚ)
  launched : List ℕ
  preferredModes : List (ℕ × String)
deriving Repr, DecidableEq

/-- Embeds `_check_inactivity_and_launch` (`run_addition_app.py` lines 95-158),
state effects only: when the threshold is used up and the learner has not
been flagged this epoch, rotate the learner's preferred mode one step
along the cycle and flag the learner; otherwise leave the state alone. -/
def checkInactivityAndLaunch (stored : Option ℚ) (lid : ℕ) (now : ℚ)
    (st : MonitorState) : MonitorState :=
  let threshold := loadInactivityThreshold stored
  let lastTs := (st.lastInteraction.lookup lid).getD now
  let remaining := threshold - (now - lastTs)
  if remaining ≤ 0 ∧ lid ∉ st.launched then
    let current := (st.preferredModes.lookup lid).getD "visual"
    { st with preferredModes := upsertMode st.preferredModes lid (modeCycle current),
              launched := lid :: st.launched }
  else st

/-- A sequence of monitor polls at the given times
(`_start_inactivity_monitor`'s loop, `run_addition_app.py` lines
164-179). -/
def pollSequence (stored : Option ℚ) (lid : ℕ) (times : List ℚ)
    (st : MonitorState) : MonitorState :=
  times.foldl (fun s t => checkInactivityAndLaunch stored lid t s) st



/-! ## Theorems -/

/-- C6 counterexample: the preferred-mode store is append-then-take-FIRST,
not last-write-wins — after writing "visual" and then "auditory" for
learner "1", the read returns "visual". -/
theorem preferredMode_not_last_write_wins :
    getPreferredMode
      (savePreferredMode (savePreferredMode [] "1" "visual") "1" "auditory") "1"
      ≠ some "auditory" := by
  decide

/-- C6 (amended): reads are first-write-wins — after
`save_preferred_mode(l, m)`, `get_preferred_mode(l)` returns the value of
the earliest stored row for `l`, and `m` only when no row for `l` existed
before the write. -/
theorem preferredMode_first_write_wins (prefs : List PrefRow) (lid m : String) :
    getPreferredMode (savePreferredMode prefs lid m) lid
      = some ((getPreferredMode prefs lid).getD m) := by
  unfold getPreferredMode savePreferredMode
  rw [List.find?_append]
  cases h : prefs.find? (fun r => r.learner_id == lid) with
  | none => simp
  | some r => simp

/-- A report whose only (hence first and latest) row carries a
low-frustration score for learner "1". -/
def lowReport : List ReportRow := [⟨"1", 1, "ts", "visual", 0, "Low frustration"⟩]

/-- A preferred-mode store already holding a row for learner "1". -/
def visualPrefs : List PrefRow := [⟨"1", "visual"⟩]

/-- C3 counterexample: in the low-frustration row with an existing
PreferredMode, `start_quiz` still writes — the store after the call has
grown by one row, so it is not left unchanged. -/
theorem selectModeLive_writes_on_existing_preference :
    (selectModeLive [] lowReport visualPrefs "1").2 ≠ visualPrefs := by
  have h : getFrustration lowReport "1" = some 0 := by
    simp [getFrustration, lowReport, List.find?]
  simp only [selectModeLive, h]
  norm_num [getPreferredMode, visualPrefs, List.find?, truthyStr, savePreferredMode]

/-- C3 (amended): the preferred-mode store is written exactly in the
low-frustration rows — whenever a frustration score exists and is below
0.4, the chosen mode is appended to the store (the chosen mode equals the
stored PreferredMode when one exists, so reads are unchanged); in the
high-frustration row and the no-report row the store is untouched. -/
theorem selectModeLive_prefs_frame (log : List LogRow) (report : List ReportRow)
    (prefs : List PrefRow) (lid : String) :
    (selectModeLive log report prefs lid).2 =
      match getFrustration report lid with
      | none => prefs
      | some sc =>
        if sc ≥ 2 / 5 then prefs
        else savePreferredMode prefs lid (selectModeLive log report prefs lid).1 := by
  unfold selectModeLive
  cases h : getFrustration report lid with
  | none => simp
  | some sc =>
    by_cases hsc : sc ≥ 2 / 5 <;> simp [hsc]

lemma existingTestsInReport_append (report extra : List ReportRow) (lid : String) :
    existingTestsInReport (report ++ extra) lid
      = existingTestsInReport report lid ++ existingTestsInReport extra lid := by
  simp [existingTestsInReport, List.filter_append]

lemma reportRowFor_learner_id (log : List LogRow) (lid now : String) (tn : ℤ) :
    (reportRowFor log lid now tn).learner_id = lid := by
  simp [reportRowFor]

lemma reportRowFor_test_number (log : List LogRow) (lid now : String) (tn : ℤ) :
    (reportRowFor log lid now tn).test_number = tn := by
  simp [reportRowFor]

lemma existingTestsInReport_newRows (log : List LogRow) (lid now : String)
    (l : List ℤ) :
    existingTestsInReport (l.map (reportRowFor log lid now)) lid = l := by
  induction l with
  | nil => simp [existingTestsInReport]
  | cons tn rest ih =>
    simp only [List.map_cons, existingTestsInReport, List.filter_cons] at *
    rw [reportRowFor_learner_id]
    simpa [reportRowFor_test_number] using ih

/-- C5: re-running the batch scorer on an unchanged log appends nothing —
the report after the second run is exactly the report after the first,
whatever timestamps the two runs would write. -/
theorem computeFrustrationPerTest_idempotent (log : List LogRow)
    (report : List ReportRow) (now now' : String) :
    computeFrustrationPerTest log (computeFrustrationPerTest log report now) now'
      = computeFrustrationPerTest log report now := by
  unfold computeFrustrationPerTest
  cases hlid : learnerIdFound log with
  | none => simp
  | some lid =>
    by_cases hlog : log = []
    · simp [hlog]
    · simp only [hlog, if_false]
      set already := existingTestsInReport report lid with halready
      set keep := (sortedTestNumbers log).filter (fun tn => decide (tn ∉ already)) with hkeep
      by_cases hk : keep = []
      · have h1 : keep.map (reportRowFor log lid now) = [] := by rw [hk]; rfl
        have h2 : keep.map (reportRowFor log lid now') = [] := by rw [hk]; rfl
        rw [h1]
        simp only [if_pos rfl, if_true, List.append_nil]
        rw [← halready, ← hkeep, h2]
        simp
      · have hmapne : keep.map (reportRowFor log lid now) ≠ [] := by
          simpa using hk
        simp only [hmapne, if_neg, ite_false]
        have halr2 : existingTestsInReport
            (report ++ keep.map (reportRowFor log lid now)) lid
            = already ++ keep := by
          rw [existingTestsInReport_append, existingTestsInReport_newRows]
        rw [halr2]
        have hfilter2 : (sortedTestNumbers log).filter
            (fun tn => decide (tn ∉ already ++ keep)) = [] := by
          rw [List.filter_eq_nil_iff]
          intro tn htn
          simp only [decide_eq_true_eq, not_not, List.mem_append]
          by_cases ha : tn ∈ already
          · exact Or.inl ha
          · exact Or.inr (by
              rw [hkeep]
              exact List.mem_filter.mpr ⟨htn, by simpa using ha⟩)
        rw [hfilter2]
        simp

lemma getLastUsedMode_aux (log : List LogRow) :
    ∀ acc : Option String × ℤ,
      (log.foldl
        (fun (a : Option String × ℤ) r =>
          if r.test_number ≥ a.2 then (some r.mode, r.test_number) else a) acc).1 = acc.1
      ∨ ∃ r ∈ log,
          (log.foldl
            (fun (a : Option String × ℤ) r =>
              if r.test_number ≥ a.2 then (some r.mode, r.test_number) else a) acc).1
            = some r.mode := by
  induction log with
  | nil => intro acc; exact Or.inl rfl
  | cons hd tl ih =>
    intro acc
    simp only [List.foldl_cons]
    by_cases h : hd.test_number ≥ acc.2
    · simp only [if_pos h]
      rcases ih (some hd.mode, hd.test_number) with h1 | ⟨r, hr, h2⟩
      · exact Or.inr ⟨hd, List.mem_cons_self hd tl, h1⟩
      · exact Or.inr ⟨r, List.mem_cons_of_mem hd hr, h2⟩
    · simp only [if_neg h]
      rcases ih acc with h1 | ⟨r, hr, h2⟩
      · exact Or.inl h1
      · exact Or.inr ⟨r, List.mem_cons_of_mem hd hr, h2⟩

lemma getLastUsedMode_mem (log : List LogRow) (m : String)
    (h : getLastUsedMode log = some m) : ∃ r ∈ log, r.mode = m := by
  unfold getLastUsedMode at h
  rcases getLastUsedMode_aux log (none, 0) with h1 | ⟨r, hr, h2⟩
  · rw [h1] at h; exact absurd h (by simp)
  · rw [h2] at h
    exact ⟨r, hr, Option.some.inj h⟩

lemma getPreferredMode_mem (prefs : List PrefRow) (lid p : String)
    (h : getPreferredMode prefs lid = some p) :
    ∃ r ∈ prefs, r.preferred_mode = p := by
  unfold getPreferredMode at h
  rcases Option.map_eq_some'.mp h with ⟨r, hfind, hp⟩
  exact ⟨r, List.mem_of_find?_eq_some hfind, hp⟩

/-- C2 (amended): the mode chosen by `start_quiz` follows the five-row
decision table fed with the FIRST stored frustration score for the
learner (the code reads the earliest report row, not the latest), the
first stored PreferredMode and the `get_last_used_mode` fold (the mode of
the last log row whose test number is maximal), provided stored mode
strings are non-empty; and the cycle satisfies
next(visual)=auditory, next(auditory)=kinesthetic,
next(kinesthetic)=visual. -/
theorem selectModeLive_matches_decision_table :
    getNextMode "visual" = "auditory" ∧ getNextMode "auditory" = "kinesthetic" ∧
    getNextMode "kinesthetic" = "visual" ∧
    ∀ (log : List LogRow) (report : List ReportRow) (prefs : List PrefRow) (lid : String),
      (∀ r ∈ prefs, r.preferred_mode ≠ "") → (∀ r ∈ log, r.mode ≠ "") →
      (selectModeLive log report prefs lid).1
        = decisionTable (getFrustration report lid) (getPreferredMode prefs lid)
            (getLastUsedMode log) := by
  refine ⟨by decide, by decide, by decide, ?_⟩
  intro log report prefs lid h1 h2
  unfold selectModeLive decisionTable
  cases hf : getFrustration report lid with
  | none => rfl
  | some sc =>
    by_cases hsc : sc ≥ 2 / 5
    · simp only [if_pos hsc]
      cases hl : getLastUsedMode log with
      | none => simp [truthyStr]
      | some lm =>
        obtain ⟨r, hr, hrm⟩ := getLastUsedMode_mem log lm hl
        have hlm : lm ≠ "" := hrm ▸ h2 r hr
        simp [truthyStr, hlm]
    · simp only [if_neg hsc]
      cases hp : getPreferredMode prefs lid with
      | some p =>
        obtain ⟨r, hr, hrp⟩ := getPreferredMode_mem prefs lid p hp
        have hp' : p ≠ "" := hrp ▸ h1 r hr
        simp [truthyStr, hp']
      | none =>
        cases hl : getLastUsedMode log with
        | none => simp [truthyStr]
        | some lm =>
          obtain ⟨r, hr, hrm⟩ := getLastUsedMode_mem log lm hl
          have hlm : lm ≠ "" := hrm ▸ h2 r hr
          simp [truthyStr, hlm]

/-- A one-row learner log whose only test used auditory mode. -/
def auditoryLog : List LogRow := [⟨"1", 1, "auditory", "q", 1, true, false, "neutral"⟩]

/-- A one-row report with a high frustration score for learner "1". -/
def highReport : List ReportRow := [⟨"1", 1, "ts", "auditory", 1, "High frustration"⟩]

/-- Witness for the decision-table theorem at a concrete high-frustration
state: the chosen mode agrees with the table. -/
theorem selectModeLive_matches_decision_table_witness :
    (selectModeLive auditoryLog highReport [] "1").1
      = decisionTable (getFrustration highReport "1") (getPreferredMode [] "1")
          (getLastUsedMode auditoryLog) :=
  selectModeLive_matches_decision_table.2.2.2 auditoryLog highReport [] "1"
    (by simp) (by simp [auditoryLog])

/-- The learner log of the C2 counterexample: one auditory test. -/
def cxLog : List LogRow := [⟨"7", 1, "auditory", "q", 1, true, false, "neutral"⟩]

/-- The report of the C2 counterexample: the first row for learner "7"
has score 0.8, the latest has score 0. -/
def cxReport : List ReportRow :=
  [⟨"7", 1, "t1", "visual", 4 / 5, "High frustration"⟩,
   ⟨"7", 2, "t2", "auditory", 0, "Low frustration"⟩]

/-- The preferred-mode store of the C2 counterexample. -/
def cxPrefs : List PrefRow := [⟨"7", "visual"⟩]

/-- C2 counterexample: the code keys the decision on the FIRST stored
frustration score (0.8, high) and rotates to kinesthetic, while the
claim's table, fed the LATEST score (0, low) and the claim's own reading
of last-used mode, picks the stored preference visual. -/
theorem selectModeLive_ne_claim_table :
    (selectModeLive cxLog cxReport cxPrefs "7").1
      ≠ decisionTable (latestFrustration cxReport "7")
          (getPreferredMode cxPrefs "7") (lastUsedModeSpec cxLog) := by
  have hf : getFrustration cxReport "7" = some (4 / 5) := by
    simp [getFrustration, cxReport, List.find?]
  have hlast : getLastUsedMode cxLog = some "auditory" := by
    simp [getLastUsedMode, cxLog]
  have hnext : getNextMode "auditory" = "kinesthetic" := by decide
  have hlat : latestFrustration cxReport "7" = some 0 := by
    simp [latestFrustration, cxReport, List.getLast?]
  have hpref : getPreferredMode cxPrefs "7" = some "visual" := by
    simp [getPreferredMode, cxPrefs, List.find?]
  have hlhs : (selectModeLive cxLog cxReport cxPrefs "7").1 = "kinesthetic" := by
    simp only [selectModeLive, hf, hlast]
    norm_num [truthyStr, hnext]
    intro h
    exact absurd h (by decide)
  have hrhs : decisionTable (latestFrustration cxReport "7")
      (getPreferredMode cxPrefs "7") (lastUsedModeSpec cxLog) = "visual" := by
    rw [hlat, hpref]
    norm_num [decisionTable]
  rw [hlhs, hrhs]
  decide

lemma checkInactivity_of_launched (stored : Option ℚ) (lid : ℕ) (now : ℚ)
    (st : MonitorState) (h : lid ∈ st.launched) :
    checkInactivityAndLaunch stored lid now st = st := by
  unfold checkInactivityAndLaunch
  rw [if_neg]
  intro hc
  exact hc.2 h

/-- C9: within one monitoring epoch the monitor fires at most once per
learner — the default threshold is 120 s; a poll before the threshold
leaves the state alone; the first poll at which the elapsed time reaches
the threshold (with the learner not yet flagged) rotates the learner's
persisted preferred mode one step along
visual→kinesthetic→auditory→visual and flags the learner; and any
sequence of later polls leaves a flagged learner's state untouched. -/
theorem inactivityMonitor_fires_at_most_once :
    loadInactivityThreshold none = 120 ∧
    (∀ (stored : Option ℚ) (lid : ℕ) (now t : ℚ) (st : MonitorState),
      st.lastInteraction.lookup lid = some t →
      now - t < loadInactivityThreshold stored →
      checkInactivityAndLaunch stored lid now st = st) ∧
    (∀ (stored : Option ℚ) (lid : ℕ) (now t : ℚ) (st : MonitorState),
      st.lastInteraction.lookup lid = some t →
      now - t ≥ loadInactivityThreshold stored →
      lid ∉ st.launched →
      checkInactivityAndLaunch stored lid now st =
        { st with
            preferredModes := upsertMode st.preferredModes lid
              (modeCycle ((st.preferredModes.lookup lid).getD "visual")),
            launched := lid :: st.launched }) ∧
    (∀ (stored : Option ℚ) (lid : ℕ) (times : List ℚ) (st : MonitorState),
      lid ∈ st.launched → pollSequence stored lid times st = st) := by
  refine ⟨rfl, ?_, ?_, ?_⟩
  · intro stored lid now t st hl hlt
    unfold checkInactivityAndLaunch
    rw [hl]
    rw [if_neg]
    intro hc
    have := hc.1
    simp only [Option.getD_some] at this
    linarith
  · intro stored lid now t st hl hge hmem
    unfold checkInactivityAndLaunch
    rw [hl]
    rw [if_pos]
    constructor
    · simp only [Option.getD_some]
      linarith
    · exact hmem
  · intro stored lid times st hmem
    induction times generalizing st with
    | nil => rfl
    | cons hd tl ih =>
      unfold pollSequence at *
      simp only [List.foldl_cons]
      rw [checkInactivity_of_launched stored lid hd st hmem]
      exact ih st hmem

/-- Witness for the inactivity-monitor theorem: with the 120 s default
threshold, a poll at 125 s of inactivity rotates visual to kinesthetic
and flags learner 1, and a later poll changes nothing. -/
theorem inactivityMonitor_fires_at_most_once_witness :
    checkInactivityAndLaunch none 1 125 ⟨[(1, 0)], [], [(1, "visual")]⟩
      = ⟨[(1, 0)], [1], [(1, "kinesthetic")]⟩ ∧
    pollSequence none 1 [130] ⟨[(1, 0)], [1], [(1, "kinesthetic")]⟩
      = ⟨[(1, 0)], [1], [(1, "kinesthetic")]⟩ := by
  constructor
  · rw [inactivityMonitor_fires_at_most_once.2.2.1 none 1 125 0
      ⟨[(1, 0)], [], [(1, "visual")]⟩ rfl (by norm_num [loadInactivityThreshold]) (by simp)]
    rfl
  · exact inactivityMonitor_fires_at_most_once.2.2.2 none 1 [130]
      ⟨[(1, 0)], [1], [(1, "kinesthetic")]⟩ (by simp)

lemma char_toNat_ofNat (n : ℕ) (h : n.isValidChar) : (Char.ofNat n).toNat = n := by
  simp [Char.ofNat, h, Char.ofNatAux, Char.toNat, UInt32.toNat]

lemma toLower_of_toUpper (c U L : Char) (hU1 : 65 ≤ U.toNat) (hU2 : U.toNat ≤ 90)
    (hL : L.toNat = U.toNat + 32) (h : Char.toUpper c = U) : Char.toLower c = L := by
  unfold Char.toUpper at h
  by_cases hc : c.toNat ≥ 97 ∧ c.toNat ≤ 122
  · rw [if_pos hc] at h
    have hvalid : (c.toNat - 32).isValidChar := by left; omega
    have htn : c.toNat - 32 = U.toNat := by
      have h' := congrArg Char.toNat h
      rwa [char_toNat_ofNat _ hvalid] at h'
    unfold Char.toLower
    rw [if_neg (by omega)]
    have hcl : c.toNat = L.toNat := by omega
    calc c = Char.ofNat c.toNat := (Char.ofNat_toNat c).symm
      _ = Char.ofNat L.toNat := by rw [hcl]
      _ = L := Char.ofNat_toNat L
  · rw [if_neg hc] at h
    subst h
    unfold Char.toLower
    rw [if_pos ⟨hU1, hU2⟩, ← hL]
    exact Char.ofNat_toNat L

lemma strUpper_skip (s : String) (h : strUpper s = "SKIP") : strLower s = "skip" := by
  have hdata : s.data.map Char.toUpper = ['S', 'K', 'I', 'P'] := congrArg String.data h
  rcases List.map_eq_cons_iff.mp hdata with ⟨c1, t1, hs1, hu1, h1⟩
  rcases List.map_eq_cons_iff.mp h1 with ⟨c2, t2, hs2, hu2, h2⟩
  rcases List.map_eq_cons_iff.mp h2 with ⟨c3, t3, hs3, hu3, h3⟩
  rcases List.map_eq_cons_iff.mp h3 with ⟨c4, t4, hs4, hu4, h4⟩
  have ht4 : t4 = [] := List.map_eq_nil_iff.mp h4
  have hl1 : Char.toLower c1 = 's' := toLower_of_toUpper c1 'S' 's'
    (by decide) (by decide) (by decide) hu1
  have hl2 : Char.toLower c2 = 'k' := toLower_of_toUpper c2 'K' 'k'
    (by decide) (by decide) (by decide) hu2
  have hl3 : Char.toLower c3 = 'i' := toLower_of_toUpper c3 'I' 'i'
    (by decide) (by decide) (by decide) hu3
  have hl4 : Char.toLower c4 = 'p' := toLower_of_toUpper c4 'P' 'p'
    (by decide) (by decide) (by decide) hu4
  unfold strLower
  rw [hs1, hs2, hs3, hs4, ht4]
  simp [hl1, hl2, hl3, hl4]

lemma strLower_eq_empty (s : String) (h : strLower s = "") : s = "" := by
  have hdata : s.data.map Char.toLower = [] := congrArg String.data h
  have : s.data = [] := List.map_eq_nil_iff.mp hdata
  cases s
  simp_all

/-- C8 counterexample: for a question whose answer key is "skip", the
"SKIP" sentinel is recorded as both skipped AND correct, violating the
invariant skipped ⇒ ¬correct. -/
theorem submitAnswer_skip_key_breaks_invariant :
    (submitAnswerFlags "skip" "SKIP").2 = true
      ∧ (submitAnswerFlags "skip" "SKIP").1 = true := by
  decide

/-- C8 (amended): the recorded flags satisfy skipped ⇒ correct is false
for every submitted answer, provided the question's answer key is not
the skip sentinel itself (lower-cased "skip") and not the empty
string. -/
theorem submitAnswer_skipped_not_correct (answerKey answer : String)
    (hk1 : strLower answerKey ≠ "skip") (hk2 : answerKey ≠ "")
    (hs : (submitAnswerFlags answerKey answer).2 = true) :
    (submitAnswerFlags answerKey answer).1 = false := by
  unfold submitAnswerFlags at hs ⊢
  simp only at hs ⊢
  rw [Bool.or_eq_true] at hs
  by_contra hc
  rw [Bool.not_eq_false, beq_iff_eq] at hc
  rcases hs with h | h
  · rw [beq_iff_eq] at h
    have hlow := strUpper_skip _ h
    rw [hc] at hlow
    exact hk1 hlow
  · rw [beq_iff_eq] at h
    subst h
    have : strLower (strTrim "") = "" := by decide
    rw [this] at hc
    exact hk2 (strLower_eq_empty _ hc.symm)

/-- Witness for the amended C8 invariant: with answer key "3", the "SKIP"
sentinel is recorded as skipped and not correct. -/
theorem submitAnswer_skipped_not_correct_witness :
    (submitAnswerFlags "3" "SKIP").1 = false :=
  submitAnswer_skipped_not_correct "3" "SKIP" (by decide) (by decide) (by decide)

/-- The C10 example test: one correct angry answer and one incorrect
neutral answer, both at the baseline response time. -/
def moderateExample : List Entry :=
  [⟨"visual", "q1", 5, true, false, "angry"⟩,
   ⟨"visual", "q2", 5, false, false, "neutral"⟩]

/-- C10: the note comes from the unrounded smoothstep value — on the
example the raw score is 3224394/8000000 ≈ 0.403, strictly above the 0.4
threshold, so the scorer returns (0.4, Moderate frustration), while the
thresholds applied to the returned rounded score 0.4 would give Low. -/
theorem note_thresholds_use_unrounded_score :
    computeTestFrustration moderateExample = (2 / 5, "Moderate frustration")
      ∧ rawScoreOf moderateExample > 2 / 5
      ∧ noteOf (2 / 5) = "Low frustration" := by
  have h1 : strLower "angry" = "angry" := by decide
  have h2 : strLower "neutral" = "neutral" := by decide
  have hraw : rawScoreOf moderateExample = 3224394 / 8000000 := by
    simp [rawScoreOf, compositeOf, smoothstep, errRateOf, rtNormOf, rtNormGiven,
      rtExcessOne, baselineOf, rtsCorrect, rtsAll, valenceOf, emoValOne, median,
      sortedList, insertSorted, negativeEmotions, moderateExample, h1, h2]
    norm_num
  refine ⟨?_, ?_, ?_⟩
  · have hne : moderateExample ≠ [] := by simp [moderateExample]
    rw [computeTestFrustration, if_neg hne, hraw, Prod.mk.injEq]
    constructor
    · norm_num [round2, round_eq]
    · norm_num [noteOf]
  · rw [hraw]; norm_num
  · norm_num [noteOf]

/-- The shared tail of the C4 counterexample lists: a fast and a slow
correct answer. -/
def monoTail : List Entry :=
  [⟨"visual", "q2", 1, true, false, "happy"⟩,
   ⟨"visual", "q3", 10, true, false, "happy"⟩]

/-- C4 counterexample: raising the first record's response time from 1
to 10 raises the median baseline from 1 to 10, which DECREASES `rt_norm`
from 1/3 to 0 and with it the composite `s` (err_rate and valence are
unchanged between the two lists). -/
theorem rtNorm_not_monotone_in_single_rt :
    rtNormOf (⟨"visual", "q1", 10, true, false, "happy"⟩ :: monoTail)
        < rtNormOf (⟨"visual", "q1", 1, true, false, "happy"⟩ :: monoTail)
      ∧ compositeOf (⟨"visual", "q1", 10, true, false, "happy"⟩ :: monoTail)
        < compositeOf (⟨"visual", "q1", 1, true, false, "happy"⟩ :: monoTail) := by
  have h3 : strLower "happy" = "happy" := by decide
  have hlo : rtNormOf (⟨"visual", "q1", 1, true, false, "happy"⟩ :: monoTail) = 1 / 3 := by
    simp [rtNormOf, rtNormGiven, rtExcessOne, baselineOf, rtsCorrect, rtsAll,
      median, sortedList, insertSorted, monoTail]
    norm_num
  have hhi : rtNormOf (⟨"visual", "q1", 10, true, false, "happy"⟩ :: monoTail) = 0 := by
    simp [rtNormOf, rtNormGiven, rtExcessOne, baselineOf, rtsCorrect, rtsAll,
      median, sortedList, insertSorted, monoTail]
  constructor
  · rw [hlo, hhi]; norm_num
  · simp only [compositeOf, hlo, hhi]
    have herr : errRateOf (⟨"visual", "q1", 10, true, false, "happy"⟩ :: monoTail)
        = errRateOf (⟨"visual", "q1", 1, true, false, "happy"⟩ :: monoTail) := by
      simp [errRateOf, monoTail]
    have hval : valenceOf (⟨"visual", "q1", 10, true, false, "happy"⟩ :: monoTail)
        = valenceOf (⟨"visual", "q1", 1, true, false, "happy"⟩ :: monoTail) := by
      simp [valenceOf, monoTail]
    rw [herr, hval]
    norm_num

lemma rtExcessOne_mono (b rt rt' : ℚ) (h : rt ≤ rt') :
    rtExcessOne b rt ≤ rtExcessOne b rt' := by
  unfold rtExcessOne
  by_cases hb : b ≤ 0
  · simp [hb]
  · rw [if_neg hb, if_neg hb]
    have hb' : 0 < b := lt_of_not_le hb
    have hbb : 0 < b * (3 / 2) := by linarith
    by_cases h1 : rt' ≤ b
    · rw [if_pos (le_trans h h1), if_pos h1]
    · rw [if_neg h1]
      by_cases h2 : rt ≤ b
      · rw [if_pos h2]
        exact le_min (div_nonneg (by linarith) (le_of_lt hbb)) zero_le_one
      · rw [if_neg h2]
        exact min_le_min
          (div_le_div_of_nonneg_right (by linarith) (le_of_lt hbb)) le_rfl

/-- C4 (amended): monotonicity holds at a fixed baseline — raising one
record's response time while keeping its skip flag and every other record
fixed never decreases `rt_norm` computed against any given baseline, and
therefore never decreases the composite `s` when err_rate and valence are
held fixed.  (With the per-test baseline recomputed from the records the
claim fails: see the counterexample, where the raise moves the median.) -/
theorem rtNorm_monotone_at_fixed_baseline (b : ℚ) (pre post : List Entry)
    (e e' : Entry) (hsk : e'.skipped = e.skipped)
    (hrt : e.response_time ≤ e'.response_time) :
    rtNormGiven b (pre ++ e :: post) ≤ rtNormGiven b (pre ++ e' :: post)
      ∧ ∀ errR val : ℚ,
        (9 / 20) * errR + (1 / 4) * rtNormGiven b (pre ++ e :: post) + (3 / 10) * val
          ≤ (9 / 20) * errR + (1 / 4) * rtNormGiven b (pre ++ e' :: post)
            + (3 / 10) * val := by
  have hmain : rtNormGiven b (pre ++ e :: post) ≤ rtNormGiven b (pre ++ e' :: post) := by
    have hx := rtExcessOne_mono b e.response_time e'.response_time hrt
    unfold rtNormGiven
    simp only [List.filter_append, List.filter_cons, hsk]
    by_cases hs : e.skipped
    · simp [hs]
    · simp only [hs, Bool.not_false, if_pos]
      simp only [List.map_append, List.map_cons, List.sum_append, List.sum_cons,
        List.length_append, List.length_cons]
      set A := (pre.filter (fun x => !x.skipped)).map (fun x => rtExcessOne b x.response_time)
      set B := (post.filter (fun x => !x.skipped)).map (fun x => rtExcessOne b x.response_time)
      have hpos : (0 : ℚ) ≤ max 1 ((A.length + (B.length + 1) : ℕ) : ℚ) :=
        le_trans zero_le_one (le_max_left _ _)
      apply div_le_div_of_nonneg_right ?_ hpos
      linarith
  exact ⟨hmain, fun errR val => by linarith⟩

/-- Witness for the fixed-baseline monotonicity: baseline 5, a single
record raised from response time 1 to 2. -/
theorem rtNorm_monotone_at_fixed_baseline_witness :
    rtNormGiven 5 ([] ++ ⟨"visual", "q", 1, true, false, "happy"⟩ :: [])
      ≤ rtNormGiven 5 ([] ++ ⟨"visual", "q", 2, true, false, "happy"⟩ :: []) :=
  (rtNorm_monotone_at_fixed_baseline 5 [] []
    ⟨"visual", "q", 1, true, false, "happy"⟩
    ⟨"visual", "q", 2, true, false, "happy"⟩ rfl (by norm_num)).1

lemma div_mem_unit (a b : ℚ) (ha : 0 ≤ a) (hab : a ≤ b) : 0 ≤ a / b ∧ a / b ≤ 1 := by
  rcases eq_or_lt_of_le (le_trans ha hab) with hb | hb
  · rw [← hb]
    norm_num
  · exact ⟨div_nonneg ha (le_of_lt hb), (div_le_one hb).mpr hab⟩

lemma errRateOf_mem_unit (entries : List Entry) :
    0 ≤ errRateOf entries ∧ errRateOf entries ≤ 1 := by
  unfold errRateOf
  apply div_mem_unit
  · positivity
  · exact_mod_cast List.length_filter_le _ entries

lemma rtExcessOne_mem_unit (b rt : ℚ) : 0 ≤ rtExcessOne b rt ∧ rtExcessOne b rt ≤ 1 := by
  unfold rtExcessOne
  by_cases hb : b ≤ 0
  · simp [hb]
  · rw [if_neg hb]
    by_cases h1 : rt ≤ b
    · simp [h1]
    · rw [if_neg h1]
      have hb' : 0 < b := lt_of_not_le hb
      have hbb : (0 : ℚ) < b * (3 / 2) := by linarith
      constructor
      · exact le_min (div_nonneg (by linarith) (le_of_lt hbb)) zero_le_one
      · exact min_le_right _ _

lemma rtNormGiven_mem_unit (b : ℚ) (entries : List Entry) :
    0 ≤ rtNormGiven b entries ∧ rtNormGiven b entries ≤ 1 := by
  unfold rtNormGiven
  set vals := (entries.filter (fun e => !e.skipped)).map
    (fun e => rtExcessOne b e.response_time) with hvals
  have hnn : ∀ x ∈ vals, (0 : ℚ) ≤ x := by
    intro x hx
    rcases List.mem_map.mp hx with ⟨e, _, he⟩
    exact he ▸ (rtExcessOne_mem_unit b e.response_time).1
  have hub : ∀ x ∈ vals, x ≤ (1 : ℚ) := by
    intro x hx
    rcases List.mem_map.mp hx with ⟨e, _, he⟩
    exact he ▸ (rtExcessOne_mem_unit b e.response_time).2
  have hsum0 : (0 : ℚ) ≤ vals.sum := List.sum_nonneg hnn
  have hsumlen : vals.sum ≤ (vals.length : ℚ) := by
    have := List.sum_le_card_nsmul vals 1 hub
    simpa using this
  have hle : vals.sum ≤ max 1 (vals.length : ℚ) :=
    le_trans hsumlen (le_max_right _ _)
  exact div_mem_unit _ _ hsum0 hle

lemma emoValOne_mem_unit (emotion : String) :
    0 ≤ emoValOne emotion ∧ emoValOne emotion ≤ 1 := by
  unfold emoValOne
  split
  · norm_num
  · split <;> norm_num

lemma valenceOf_mem_unit (entries : List Entry) :
    0 ≤ valenceOf entries ∧ valenceOf entries ≤ 1 := by
  unfold valenceOf
  apply div_mem_unit
  · apply List.sum_nonneg
    intro x hx
    rcases List.mem_map.mp hx with ⟨e, _, he⟩
    exact he ▸ (emoValOne_mem_unit e.emotion).1
  · have hub : ∀ x ∈ entries.map (fun e => emoValOne e.emotion), x ≤ (1 : ℚ) := by
      intro x hx
      rcases List.mem_map.mp hx with ⟨e, _, he⟩
      exact he ▸ (emoValOne_mem_unit e.emotion).2
    have := List.sum_le_card_nsmul (entries.map (fun e => emoValOne e.emotion)) 1 hub
    simpa using this

lemma compositeOf_mem_unit (entries : List Entry) :
    0 ≤ compositeOf entries ∧ compositeOf entries ≤ 1 := by
  obtain ⟨he0, he1⟩ := errRateOf_mem_unit entries
  obtain ⟨hr0, hr1⟩ := rtNormGiven_mem_unit (baselineOf entries) entries
  obtain ⟨hv0, hv1⟩ := valenceOf_mem_unit entries
  unfold compositeOf rtNormOf
  constructor <;> nlinarith

lemma smoothstep_mem_unit (s : ℚ) (h0 : 0 ≤ s) (h1 : s ≤ 1) :
    0 ≤ smoothstep s ∧ smoothstep s ≤ 1 := by
  unfold smoothstep
  constructor
  · nlinarith [sq_nonneg s, mul_nonneg (mul_nonneg h0 h0) h0]
  · nlinarith [sq_nonneg (1 - s), mul_nonneg (mul_nonneg (sub_nonneg.mpr h1) (sub_nonneg.mpr h1)) h0]

lemma round2_mem_unit (x : ℚ) (h0 : 0 ≤ x) (h1 : x ≤ 1) :
    0 ≤ round2 x ∧ round2 x ≤ 1 := by
  unfold round2
  rw [round_eq]
  have hl : (0 : ℤ) ≤ ⌊x * 100 + 1 / 2⌋ := by
    rw [Int.le_floor]
    push_cast
    linarith
  have hu : ⌊x * 100 + 1 / 2⌋ ≤ 100 := by
    have : ⌊x * 100 + 1 / 2⌋ ≤ ⌊(201 : ℚ) / 2⌋ := Int.floor_le_floor (by linarith)
    have h201 : ⌊(201 : ℚ) / 2⌋ = 100 := by norm_num [Int.floor_eq_iff]
    omega
  constructor
  · positivity
  · rw [div_le_one (by norm_num)]
    exact_mod_cast hu

/-- C7: for every list of interaction records, the returned frustration
score lies in [0, 1]. -/
theorem score_mem_unit_interval (entries : List Entry) :
    0 ≤ (computeTestFrustration entries).1 ∧ (computeTestFrustration entries).1 ≤ 1 := by
  unfold computeTestFrustration
  by_cases h : entries = []
  · simp [h]
  · rw [if_neg h]
    obtain ⟨hs0, hs1⟩ := compositeOf_mem_unit entries
    obtain ⟨hr0, hr1⟩ := smoothstep_mem_unit _ hs0 hs1
    exact round2_mem_unit _ hr0 hr1

lemma baselineOf_eq_specBaseline (entries : List Entry) :
    baselineOf entries = specBaseline entries := by
  unfold baselineOf specBaseline
  by_cases h1 : (rtsCorrect entries).length ≥ 2
  · rw [if_pos h1, if_pos h1]
  · rw [if_neg h1, if_neg h1]
    by_cases h2 : rtsAll entries = []
    · rw [if_neg (by simpa using h2), if_pos h2]
    · rw [if_pos (by simpa using h2), if_neg h2]

lemma errRateOf_eq_specErrRate (entries : List Entry) :
    errRateOf entries = specErrRate entries := by
  unfold errRateOf specErrRate
  rw [List.countP_eq_length_filter]

lemma rtExcessOne_eq_guarded (b rt : ℚ) :
    rtExcessOne b rt = specExcessOneGuarded b rt := by
  unfold rtExcessOne specExcessOneGuarded specExcessOne
  by_cases hb : b ≤ 0
  · rw [if_pos hb, if_pos hb]
  · rw [if_neg hb, if_neg hb]
    by_cases h1 : rt ≤ b
    · rw [if_pos h1, if_neg (not_lt.mpr h1)]
    · rw [if_neg h1, if_pos (lt_of_not_le h1)]

lemma rtNormOf_eq_spec (entries : List Entry) :
    rtNormOf entries = specRtNormWith specExcessOneGuarded entries := by
  unfold rtNormOf rtNormGiven specRtNormWith
  have hfun : (fun e : Entry => rtExcessOne (baselineOf entries) e.response_time)
      = (fun e : Entry => specExcessOneGuarded (specBaseline entries) e.response_time) := by
    funext e
    rw [rtExcessOne_eq_guarded, baselineOf_eq_specBaseline]
  rw [hfun]

/-- C1 (amended): the scorer equals the spec's reference definition once
the reference's per-record excess carries the code's non-positive-baseline
guard (excess 0 whenever the baseline is ≤ 0). -/
theorem scorer_eq_spec_reference_guarded (entries : List Entry) :
    computeTestFrustration entries = specScorerGuarded entries := by
  unfold computeTestFrustration specScorerGuarded specScorerWith
  by_cases h : entries = []
  · rw [if_pos h, if_pos h]
  · rw [if_neg h, if_neg h]
    have hs : rawScoreOf entries
        = smoothstep ((9 / 20) * specErrRate entries
          + (1 / 4) * specRtNormWith specExcessOneGuarded entries
          + (3 / 10) * specValence entries) := by
      unfold rawScoreOf compositeOf
      rw [errRateOf_eq_specErrRate, rtNormOf_eq_spec]
      rfl
    rw [hs]

/-- The C1 counterexample list: negative response times give the test a
negative median baseline. -/
def negBaselineExample : List Entry :=
  [⟨"visual", "q1", -2, true, false, "happy"⟩,
   ⟨"visual", "q2", -2, true, false, "happy"⟩,
   ⟨"visual", "q3", 100, true, false, "happy"⟩]

/-- C1 counterexample: on a test whose baseline (the median response
time) is negative, the code's scorer returns (0, Low) — its excess values
are zeroed by the `baseline <= 0` guard — while the spec's reference
formula divides by the negative `baseline × 1.5` and returns
(69.57, High); the scorer therefore does not equal the reference
definition exactly as the claim words it. -/
theorem scorer_ne_spec_reference :
    computeTestFrustration negBaselineExample ≠ specScorer negBaselineExample := by
  have h3 : strLower "happy" = "happy" := by decide
  have hcode : computeTestFrustration negBaselineExample = (0, "Low frustration") := by
    have hraw : rawScoreOf negBaselineExample = 0 := by
      simp [rawScoreOf, compositeOf, smoothstep, errRateOf, rtNormOf, rtNormGiven,
        rtExcessOne, baselineOf, rtsCorrect, rtsAll, valenceOf, emoValOne, median,
        sortedList, insertSorted, negativeEmotions, negBaselineExample, h3]
    have hne : negBaselineExample ≠ [] := by simp [negBaselineExample]
    rw [computeTestFrustration, if_neg hne, hraw]
    norm_num [round2, noteOf]
  have hspecRt : specRtNormWith specExcessOne negBaselineExample = -34 / 3 := by
    simp [specRtNormWith, specExcessOne, specBaseline, rtsCorrect, rtsAll, median,
      sortedList, insertSorted, negBaselineExample]
    norm_num
  have hspec : specScorer negBaselineExample = (6957 / 100, "High frustration") := by
    unfold specScorer specScorerWith
    have hne : negBaselineExample ≠ [] := by simp [negBaselineExample]
    rw [if_neg hne, hspecRt]
    have herr : specErrRate negBaselineExample = 0 := by
      simp [specErrRate, negBaselineExample]
    have hval : specValence negBaselineExample = 0 := by
      simp [specValence, negBaselineExample, emoValOne, h3, negativeEmotions]
    rw [herr, hval, Prod.mk.injEq]
    constructor
    · norm_num [smoothstep, round2, round_eq]
    · norm_num [smoothstep, noteOf]
  rw [hcode, hspec]
  simp
